import Mathlib

/-!
# Verification of the banana-mcp image-generation MCP server

Shallow embedding of the repository's core logic:
* `src/utils/paths.ts` — path confinement (`safeJoinOutputs`, `validateOutputPath`)
* `src/utils/files.ts` — filename generation, size parsing, persistence helpers
* `src/mcp/server.ts` — rate limiter, tool dispatch, the four tool handlers
* `src/providers/geminiProvider.ts` — provider adapter (request derivation,
  multi-shape response parsing, error wrapping)

POSIX paths are modelled as strings over their character lists; Node's
`path.basename` / `path.resolve` / `path.join`-then-`resolve` pipeline is
embedded as component-list splitting, `.`/`..` normalization and re-rendering.
JavaScript string falsiness (the empty string) is modelled explicitly where the
source relies on it.  Exceptions are modelled with `Option`/`Except`.
-/

namespace BananaMcp

/-! ## Character-list path primitives -/

/-- Split a character list at every occurrence of `sep` (like JS
`String.prototype.split`): `splitChar '/' "a/b" = ["a","b"]`, and the result is
never empty. -/
def splitChar (sep : Char) : List Char → List (List Char)
  | [] => [[]]
  | c :: cs =>
    if c = sep then [] :: splitChar sep cs
    else (c :: (splitChar sep cs).headI) :: (splitChar sep cs).tail

theorem splitChar_ne_nil (sep : Char) (cs : List Char) : splitChar sep cs ≠ [] := by
  cases cs with
  | nil => simp [splitChar]
  | cons c cs =>
    by_cases hc : c = sep <;> simp [splitChar, hc]

theorem not_mem_of_mem_splitChar (sep : Char) (cs : List Char) :
    ∀ p ∈ splitChar sep cs, sep ∉ p := by
  induction cs with
  | nil => intro p hp; simp [splitChar] at hp; simp [hp]
  | cons c cs ih =>
    intro p hp
    cases h : splitChar sep cs with
    | nil => exact absurd h (splitChar_ne_nil sep cs)
    | cons q qs =>
      have ihq : sep ∉ q := ih q (by rw [h]; exact List.mem_cons_self q qs)
      have ihrest : ∀ r ∈ qs, sep ∉ r := fun r hr =>
        ih r (by rw [h]; exact List.mem_cons_of_mem q hr)
      simp only [splitChar, h] at hp
      by_cases hc : c = sep
      · rw [if_pos hc] at hp
        rcases List.mem_cons.mp hp with h1 | h2
        · simp [h1]
        · rcases List.mem_cons.mp h2 with h3 | h4
          · exact h3 ▸ ihq
          · exact ihrest p h4
      · rw [if_neg hc] at hp
        simp only [List.headI, List.tail] at hp
        rcases List.mem_cons.mp hp with hp | hp
        · subst hp
          intro hmem
          rcases List.mem_cons.mp hmem with h1 | h1
          · exact hc h1.symm
          · exact ihq h1
        · exact ihrest p hp

theorem splitChar_append_sep (sep : Char) (xs ys : List Char) :
    splitChar sep (xs ++ sep :: ys) = splitChar sep xs ++ splitChar sep ys := by
  induction xs with
  | nil => simp [splitChar]
  | cons c cs ih =>
    cases h : splitChar sep cs with
    | nil => exact absurd h (splitChar_ne_nil sep cs)
    | cons p ps =>
      have ih' : splitChar sep (cs ++ sep :: ys) = p :: (ps ++ splitChar sep ys) := by
        rw [ih, h]; simp
      by_cases hc : c = sep <;>
        simp [splitChar, ih', h, hc]

theorem splitChar_eq_single (sep : Char) (cs : List Char) (h : sep ∉ cs) :
    splitChar sep cs = [cs] := by
  induction cs with
  | nil => rfl
  | cons c cs ih =>
    simp only [List.mem_cons, not_or] at h
    have hc : ¬ c = sep := fun hc => h.1 hc.symm
    simp [splitChar, ih h.2, if_neg hc]

/-! ## Path normalization and rendering (Node `path.resolve` on POSIX) -/

/-- One step of path normalization: empty components and `.` are skipped,
`..` pops the last component (at the root it is a no-op), anything else is
appended. -/
def normStep (acc : List (List Char)) (comp : List Char) : List (List Char) :=
  if comp = [] ∨ comp = ['.'] then acc
  else if comp = ['.', '.'] then acc.dropLast
  else acc ++ [comp]

/-- Normalize a component list, resolving `.` and `..` (Node canonicalization
for an absolute path). -/
def normalizeComps (cs : List (List Char)) : List (List Char) :=
  cs.foldl normStep []

/-- Join components with `/` separators (no leading slash). -/
def joinComps : List (List Char) → List Char
  | [] => []
  | [p] => p
  | p :: ps => p ++ '/' :: joinComps ps

/-- Render an absolute path from its normalized components. -/
def renderAbs (cs : List (List Char)) : String :=
  ⟨'/' :: joinComps cs⟩

/-- Node `path.resolve` applied to a single absolute (or root-relative,
after prefixing a base) path string: split on `/`, resolve `.`/`..`,
re-render. -/
def resolveString (s : String) : String :=
  renderAbs (normalizeComps (splitChar '/' s.data))

/-- Whether a string starts with `/` (an absolute POSIX path). -/
def isAbsolute (s : String) : Bool :=
  s.data.headI = '/'

/-- Node `path.resolve(base, p)` for an absolute `base`: if `p` is absolute it
is canonicalized on its own, otherwise it is joined to `base` first. -/
def pathResolve (base p : String) : String :=
  if isAbsolute p then resolveString p
  else resolveString (base ++ "/" ++ p)

/-- Node `path.basename` (POSIX): the last nonempty `/`-separated component;
`/` for an all-slash absolute input, `""` for the empty string. -/
def basenameStr (p : String) : String :=
  match ((splitChar '/' p.data).filter (· ≠ [])).getLast? with
  | some x => ⟨x⟩
  | none => if p.data.headI = '/' then "/" else ""

/-- JS `String.prototype.startsWith`: `strStartsWith s pre` is `s.startsWith(pre)`. -/
def strStartsWith (s pre : String) : Bool :=
  pre.data.isPrefixOf s.data

/-! ## `src/utils/paths.ts` -/

/-- The project root (`path.resolve(__dirname, '..', '..')`); a concrete
absolute directory standing for the deployment location. -/
def PROJECT_ROOT : String := "/app/banana-mcp"

/-- `process.env.OUTPUT_DIR || './outputs'` — the default. -/
def OUTPUT_DIR : String := "./outputs"

/-- `path.resolve(PROJECT_ROOT, OUTPUT_DIR)`. -/
def OUTPUTS_PATH : String := pathResolve PROJECT_ROOT OUTPUT_DIR

theorem OUTPUTS_PATH_eq : OUTPUTS_PATH = "/app/banana-mcp/outputs" := by decide

/-- `safeJoinOutputs(filename)`: take `path.basename`, join under
`OUTPUTS_PATH`, canonicalize, and fail (`none`, the thrown
`'Invalid output path: path traversal detected'`) unless the result
string-starts-with `OUTPUTS_PATH`. -/
def safeJoinOutputs (filename : String) : Option String :=
  if strStartsWith (resolveString (OUTPUTS_PATH ++ "/" ++ basenameStr filename)) OUTPUTS_PATH
  then some (resolveString (OUTPUTS_PATH ++ "/" ++ basenameStr filename))
  else none

/-- `validateOutputPath(filePath)`: resolve against `PROJECT_ROOT` and fail
(`none`, the thrown `'Invalid output path: must be within outputs directory'`)
unless the result string-starts-with `OUTPUTS_PATH`. -/
def validateOutputPath (filePath : String) : Option String :=
  if strStartsWith (pathResolve PROJECT_ROOT filePath) OUTPUTS_PATH
  then some (pathResolve PROJECT_ROOT filePath)
  else none

/-- `toRelativePath`: `path.relative(PROJECT_ROOT, absolutePath)`, embedded for
the descendant paths the handlers actually produce. -/
def toRelativePath (absolutePath : String) : String :=
  if strStartsWith absolutePath (PROJECT_ROOT ++ "/") then
    ⟨absolutePath.data.drop (PROJECT_ROOT.data.length + 1)⟩
  else absolutePath

/-! ### Characterization of the path guard -/

theorem basenameStr_cases (f : String) :
    basenameStr f = "/" ∨ '/' ∉ (basenameStr f).data := by
  unfold basenameStr
  cases h : ((splitChar '/' f.data).filter (· ≠ [])).getLast? with
  | none =>
    by_cases habs : f.data.headI = '/' <;> simp [habs]
  | some x =>
    right
    have hx : x ∈ (splitChar '/' f.data).filter (· ≠ []) := List.mem_of_mem_getLast? h
    exact not_mem_of_mem_splitChar '/' f.data x (List.mem_of_mem_filter hx)

theorem joinComps_append_single (cs : List (List Char)) (b : List Char) (h : cs ≠ []) :
    joinComps (cs ++ [b]) = joinComps cs ++ '/' :: b := by
  induction cs with
  | nil => exact absurd rfl h
  | cons p ps ih =>
    cases ps with
    | nil => rfl
    | cons q qs =>
      have ih' := ih (by simp)
      show p ++ '/' :: joinComps ((q :: qs) ++ [b])
          = (p ++ '/' :: joinComps (q :: qs)) ++ '/' :: b
      rw [ih']
      simp [List.append_assoc]

/-- Components of the canonicalized outputs directory. -/
def outComps : List (List Char) :=
  ["app".data, "banana-mcp".data, "outputs".data]

theorem normalize_out_prefix :
    normalizeComps (splitChar '/' "/app/banana-mcp/outputs".data) = outComps := by decide

theorem renderAbs_outComps : renderAbs outComps = OUTPUTS_PATH := by decide

/-- Full evaluation of `safeJoinOutputs`: the joined name is the basename of
the input; `..` escapes and is refused, `.`/empty/`/` collapse to the outputs
root, and everything else lands one level below the outputs root. -/
theorem safeJoinOutputs_eval (f : String) :
    safeJoinOutputs f =
      if basenameStr f = ".." then none
      else if basenameStr f = "." ∨ basenameStr f = "" ∨ basenameStr f = "/" then
        some OUTPUTS_PATH
      else some (OUTPUTS_PATH ++ "/" ++ basenameStr f) := by
  have hdata : (OUTPUTS_PATH ++ "/" ++ basenameStr f).data
      = "/app/banana-mcp/outputs".data ++ '/' :: (basenameStr f).data := by
    rw [OUTPUTS_PATH_eq]
    simp [String.data_append]
  have hsplit : splitChar '/' (OUTPUTS_PATH ++ "/" ++ basenameStr f).data
      = splitChar '/' "/app/banana-mcp/outputs".data ++ splitChar '/' (basenameStr f).data := by
    rw [hdata, splitChar_append_sep]
  have hnorm : ∀ t, normalizeComps (splitChar '/' "/app/banana-mcp/outputs".data ++ t)
      = t.foldl normStep outComps := by
    intro t
    rw [normalizeComps, List.foldl_append]
    rfl
  rcases basenameStr_cases f with hb | hb
  · -- basename is "/": the extra slash collapses and we land on the outputs root
    rw [safeJoinOutputs, hb]
    decide
  · -- basename contains no slash: it is a single component
    have hsingle : splitChar '/' (basenameStr f).data = [(basenameStr f).data] :=
      splitChar_eq_single '/' _ hb
    have hres : resolveString (OUTPUTS_PATH ++ "/" ++ basenameStr f)
        = renderAbs (normStep outComps (basenameStr f).data) := by
      rw [resolveString, hsplit, hsingle, hnorm]
      rfl
    by_cases hdd : basenameStr f = ".."
    · rw [safeJoinOutputs, hdd]
      decide
    · by_cases hdot : basenameStr f = "." ∨ basenameStr f = "" ∨ basenameStr f = "/"
      · rcases hdot with h1 | h1 | h1 <;> rw [safeJoinOutputs, h1] <;> decide
      · rw [if_neg hdd, if_neg hdot]
        push_neg at hdot
        have hne : (basenameStr f).data ≠ [] := by
          intro hcon
          exact hdot.2.1 (String.ext hcon)
        have hnd : ¬((basenameStr f).data = [] ∨ (basenameStr f).data = ['.']) := by
          rintro (h1 | h1)
          · exact hne h1
          · exact hdot.1 (String.ext h1)
        have hnd2 : (basenameStr f).data ≠ ['.', '.'] := by
          intro h1
          exact hdd (String.ext h1)
        have hstep : normStep outComps (basenameStr f).data
            = outComps ++ [(basenameStr f).data] :=
          by rw [normStep, if_neg hnd, if_neg hnd2]
        have hrender : renderAbs (outComps ++ [(basenameStr f).data])
            = OUTPUTS_PATH ++ "/" ++ basenameStr f := by
          rw [renderAbs, joinComps_append_single outComps _ (by decide)]
          apply String.ext
          rw [hdata]
          rfl
        have hpref : strStartsWith (OUTPUTS_PATH ++ "/" ++ basenameStr f) OUTPUTS_PATH = true := by
          rw [strStartsWith, List.isPrefixOf_iff_prefix, hdata, OUTPUTS_PATH_eq]
          exact List.prefix_append _ _
        rw [safeJoinOutputs, hres, hstep, hrender, hpref]
        simp

/-- A bare filename (no `/` anywhere) resolves against the project root, so
`validateOutputPath` rejects it — unless it happens to begin with `outputs`,
because the containment test is a raw string-prefix check. -/
theorem validateOutputPath_bare (name : String) (hslash : '/' ∉ name.data)
    (hpre : ¬ ("outputs".data <+: name.data)) :
    validateOutputPath name = none := by
  have habs : isAbsolute name = false := by
    unfold isAbsolute
    cases hd : name.data with
    | nil => decide
    | cons c cs =>
      have hc : c ∈ name.data := by rw [hd]; exact List.mem_cons_self c cs
      have : c ≠ '/' := fun h => hslash (h ▸ hc)
      simp [List.headI, this]
  have hdata : (PROJECT_ROOT ++ "/" ++ name).data
      = "/app/banana-mcp".data ++ '/' :: name.data := by
    simp [PROJECT_ROOT, String.data_append]
  have hsplit : splitChar '/' (PROJECT_ROOT ++ "/" ++ name).data
      = splitChar '/' "/app/banana-mcp".data ++ [name.data] := by
    rw [hdata, splitChar_append_sep, splitChar_eq_single '/' _ hslash]
  have hresolve : pathResolve PROJECT_ROOT name
      = renderAbs (normStep ["app".data, "banana-mcp".data] name.data) := by
    rw [pathResolve, habs]
    simp only [Bool.false_eq_true, if_false, resolveString, hsplit]
    rw [normalizeComps, List.foldl_append]
    rfl
  by_cases h1 : name.data = [] ∨ name.data = ['.']
  · have hstep : normStep ["app".data, "banana-mcp".data] name.data
        = ["app".data, "banana-mcp".data] := by rw [normStep, if_pos h1]
    rw [validateOutputPath, hresolve, hstep]
    decide
  · by_cases h2 : name.data = ['.', '.']
    · have hstep : normStep ["app".data, "banana-mcp".data] name.data
          = ["app".data] := by rw [normStep, if_neg h1, if_pos h2]; rfl
      rw [validateOutputPath, hresolve, hstep]
      decide
    · have hstep : normStep ["app".data, "banana-mcp".data] name.data
          = ["app".data, "banana-mcp".data] ++ [name.data] := by
        rw [normStep, if_neg h1, if_neg h2]
      have hrender : (renderAbs (["app".data, "banana-mcp".data] ++ [name.data])).data
          = "/app/banana-mcp/".data ++ name.data := by
        rw [renderAbs, joinComps_append_single _ _ (by decide)]
        rfl
      have hpref2 : ¬ (OUTPUTS_PATH.data <+: ("/app/banana-mcp/".data ++ name.data)) := by
        rw [show OUTPUTS_PATH.data = "/app/banana-mcp/".data ++ "outputs".data from by decide]
        rw [ List.prefix_append_right_inj]
        exact hpre
      have hcheck : strStartsWith (renderAbs (["app".data, "banana-mcp".data] ++ [name.data]))
          OUTPUTS_PATH = false := by
        simp only [strStartsWith, hrender]
        rw [Bool.eq_false_iff]
        intro hT
        rw [ List.isPrefixOf_iff_prefix] at hT
        exact hpref2 hT
      rw [validateOutputPath, hresolve, hstep, hcheck]
      rfl

/-- The basename of `dir ++ "/" ++ n` for a slash-free nonempty `n` is `n`:
`path.basename` discards every directory component. -/
theorem basenameStr_append (dir n : String) (hslash : '/' ∉ n.data) (hne : n ≠ "") :
    basenameStr (dir ++ "/" ++ n) = n := by
  have hnd : n.data ≠ [] := fun h => hne (String.ext h)
  have hdata : (dir ++ "/" ++ n).data = dir.data ++ '/' :: n.data := by
    simp [String.data_append]
  rw [basenameStr, hdata, splitChar_append_sep, splitChar_eq_single '/' _ hslash,
    List.filter_append]
  rw [show List.filter (fun p => decide (p ≠ [])) [n.data] = [n.data] from by
    simp [List.filter, hnd]]
  rw [List.getLast?_concat]

/-! ## `src/utils/files.ts` -/

/-- `new Date().toISOString().replace(/[:.]/g, '-').slice(0, 19)` applied to a
timestamp string supplied by the clock. -/
def sanitizeTimestamp (ts : String) : String :=
  ⟨(ts.data.map (fun c => if c = ':' ∨ c = '.' then '-' else c)).take 19⟩

/-- `generateFilename(toolName, extension)`; the timestamp and the random hex
hash are parameters of the model (clock and randomness). -/
def generateFilename (toolName extension ts hash : String) : String :=
  toolName ++ "_" ++ sanitizeTimestamp ts ++ "_" ++ hash ++ "." ++ extension

/-- JS `Number` on a digit string (the only use sites feed digit strings from
the validated size enums). -/
def decimalValue (cs : List Char) : Nat :=
  cs.foldl (fun a c => a * 10 + (c.toNat - '0'.toNat)) 0

/-- `parseSize(size)`: split on `'x'` and read width and height. -/
def parseSize (size : String) : Nat × Nat :=
  match splitChar 'x' size.data with
  | w :: h :: _ => (decimalValue w, decimalValue h)
  | _ => (0, 0)

/-- `getMimeType(extension)`. -/
def getMimeType (extension : String) : String :=
  let lower : String := ⟨extension.data.map Char.toLower⟩
  if lower = "png" then "image/png"
  else if lower = "webp" then "image/webp"
  else if lower = "jpg" then "image/jpeg"
  else if lower = "jpeg" then "image/jpeg"
  else "application/octet-stream"

/-! ## Rate limiter (`src/mcp/server.ts` lines 33–50) -/

def RATE_LIMIT_WINDOW : Nat := 60000

/-- `parseInt(process.env.RATE_LIMIT_PER_MINUTE || '20', 10)` — the default. -/
def RATE_LIMIT_MAX : Nat := 20

/-- `checkRateLimit`, acting on one tool's timestamp list: prune entries
outside the window, fail (`none`, the thrown rate-limit error) when the
remaining count reaches capacity, otherwise record `now`. -/
def checkRateLimit (now : Nat) (timestamps : List Nat) : Option (List Nat) :=
  let validTimestamps := timestamps.filter (fun t => now - t < RATE_LIMIT_WINDOW)
  if RATE_LIMIT_MAX ≤ validTimestamps.length then none
  else some (validTimestamps ++ [now])

/-- Run a sequence of calls through the rate limiter, all against the same
tool name; fails as soon as one call is rejected. -/
def runCalls : List Nat → List Nat → Option (List Nat)
  | [], st => some st
  | t :: ts, st =>
    match checkRateLimit t st with
    | some st' => runCalls ts st'
    | none => none

theorem runCalls_all_within (a : Nat) :
    ∀ (ts st : List Nat), (∀ x ∈ st ++ ts, a ≤ x ∧ x < a + RATE_LIMIT_WINDOW) →
      st.length + ts.length ≤ RATE_LIMIT_MAX →
      runCalls ts st = some (st ++ ts) := by
  intro ts
  induction ts with
  | nil => intro st _ _; simp [runCalls]
  | cons t ts ih =>
    intro st hwin hlen
    have hst : ∀ x ∈ st, a ≤ x ∧ x < a + RATE_LIMIT_WINDOW := fun x hx =>
      hwin x (List.mem_append_left _ hx)
    have ht : a ≤ t ∧ t < a + RATE_LIMIT_WINDOW :=
      hwin t (List.mem_append_right _ (List.mem_cons_self t ts))
    have hfilter : st.filter (fun s => decide (t - s < RATE_LIMIT_WINDOW)) = st := by
      apply List.filter_eq_self.mpr
      intro s hs
      have hsa := hst s hs
      simp only [decide_eq_true_iff]
      omega
    have hlen' : st.length + ts.length + 1 ≤ RATE_LIMIT_MAX := by
      rw [List.length_cons] at hlen
      omega
    have hlt : ¬ (RATE_LIMIT_MAX ≤ st.length) := by omega
    have hcheck : checkRateLimit t st = some (st ++ [t]) := by
      rw [checkRateLimit]
      simp only [hfilter, if_neg hlt]
    rw [runCalls, hcheck]
    show runCalls ts (st ++ [t]) = some (st ++ t :: ts)
    have := ih (st ++ [t])
      (by
        intro x hx
        rcases List.mem_append.mp hx with hx | hx
        · rcases List.mem_append.mp hx with hx | hx
          · exact hst x hx
          · rcases List.mem_singleton.mp hx with rfl
            exact ht
        · exact hwin x (List.mem_append_right _ (List.mem_cons_of_mem t hx)))
      (by simp only [List.length_append, List.length_singleton]; omega)
    rw [this]
    simp

/-- Once every recorded timestamp is a full window old, the check succeeds and
the stale entries are pruned. -/
theorem checkRateLimit_after_window (now : Nat) (st : List Nat)
    (h : ∀ t ∈ st, t + RATE_LIMIT_WINDOW ≤ now) :
    checkRateLimit now st = some [now] := by
  have hfilter : st.filter (fun t => decide (now - t < RATE_LIMIT_WINDOW)) = [] := by
    apply List.filter_eq_nil_iff.mpr
    intro t ht
    have := h t ht
    simp only [decide_eq_true_iff]
    omega
  rw [checkRateLimit]
  simp [hfilter, RATE_LIMIT_MAX]

/-! ## Provider adapter (`src/providers/geminiProvider.ts`, Nano Banana version) -/

structure GeminiConfig where
  apiKey : String
  baseUrl : String
  model : String
deriving DecidableEq, Repr

/-- `isConfigured(): !!apiKey && !!baseUrl` (JS empty-string falsiness). -/
def isConfigured (c : GeminiConfig) : Bool :=
  (c.apiKey ≠ "") && (c.baseUrl ≠ "")

inductive ImgFormat where
  | base64
  | url
deriving DecidableEq, Repr

structure ImageGenerationResult where
  data : String
  format : ImgFormat
  width : Nat
  height : Nat
deriving DecidableEq, Repr

/-- `part.inline_data` — `data` may be absent. -/
structure InlineData where
  data : Option String
deriving DecidableEq, Repr

structure ResponsePart where
  inline_data : Option InlineData
deriving DecidableEq, Repr

structure CandidateContent where
  parts : Option (List ResponsePart)
deriving DecidableEq, Repr

structure Candidate where
  content : Option CandidateContent
deriving DecidableEq, Repr

/-- A provider response body: the documented nested shape plus the legacy
top-level fields the parser probes.  A field the JSON object lacks is `none`. -/
structure GeminiResponse where
  candidates : Option (List Candidate)
  image : Option String
  data : Option String
  url : Option String
  images : Option (List String)
deriving DecidableEq, Repr

/-- The inner loop of `parseResponse`: scan `content.parts` for a truthy
`inline_data.data`. -/
def searchParts : List ResponsePart → Option String
  | [] => none
  | p :: rest =>
    match p.inline_data with
    | some d =>
      match d.data with
      | some s => if s ≠ "" then some s else searchParts rest
      | none => searchParts rest
    | none => searchParts rest

/-- The outer loop of `parseResponse`: scan candidates for a part with inline
image data. -/
def searchCandidates : List Candidate → Option String
  | [] => none
  | c :: rest =>
    match c.content with
    | some ct =>
      match ct.parts with
      | some ps =>
        match searchParts ps with
        | some s => some s
        | none => searchCandidates rest
      | none => searchCandidates rest
    | none => searchCandidates rest

/-- A truthy string field (`response.x && typeof response.x === 'string'`):
present and nonempty. -/
def truthyField : Option String → Option String
  | some s => if s ≠ "" then some s else none
  | none => none

/-- `GeminiProvider.parseResponse` (Nano Banana version): documented nested
`candidates[].content.parts[].inline_data.data` first, then the legacy
`image`, `data` and `url` top-level fields, in that order; `none` is the
thrown parse error. -/
def parseResponse (response : GeminiResponse) (size : String) : Option ImageGenerationResult :=
  let wh := parseSize size
  match (match response.candidates with
         | some cs => searchCandidates cs
         | none => none) with
  | some s => some ⟨s, ImgFormat.base64, wh.1, wh.2⟩
  | none =>
    match truthyField response.image with
    | some img =>
      some ⟨img, if strStartsWith img "http" then ImgFormat.url else ImgFormat.base64, wh.1, wh.2⟩
    | none =>
      match truthyField response.data with
      | some d =>
        some ⟨d, if strStartsWith d "http" then ImgFormat.url else ImgFormat.base64, wh.1, wh.2⟩
      | none =>
        match truthyField response.url with
        | some u => some ⟨u, ImgFormat.url, wh.1, wh.2⟩
        | none => none

/-- `getAspectRatio(width, height)`; JS number division is modelled by exact
rational arithmetic, which agrees with IEEE doubles on the pixel ranges the
size enums produce. -/
def getAspectRatio (width height : ℚ) : String :=
  if width = height then "1:1"
  else if height < width then
    if 1.4 ≤ width / height ∧ width / height ≤ 1.6 then "3:2"
    else if 1.7 ≤ width / height then "16:9"
    else "4:3"
  else
    if 1.4 ≤ height / width ∧ height / width ≤ 1.6 then "2:3"
    else if 1.7 ≤ height / width then "9:16"
    else "3:4"

/-- `getImageSize(width, height)`: coarse size tier from the larger dimension. -/
def getImageSize (width height : Nat) : String :=
  let maxDim := max width height
  if maxDim ≤ 1024 then "1K"
  else if maxDim ≤ 2048 then "2K"
  else "4K"

/-- The observed HTTP exchange of the one outbound call (a model parameter:
the remote's answer). -/
structure HttpResult where
  ok : Bool
  status : Nat
  statusText : String
  body : GeminiResponse
deriving DecidableEq, Repr

/-- `GeminiProvider.generateImage`: configuration check outside the `try`;
inside it, non-success statuses and unparseable bodies throw, and every
failure of the `try` block is re-thrown wrapped in `Image generation
failed:`. -/
def geminiGenerateImage (cfg : GeminiConfig) (http : HttpResult) (size : String) :
    Except String ImageGenerationResult :=
  if isConfigured cfg = false then
    Except.error "Gemini provider not configured. Set GEMINI_API_KEY in your .env file"
  else
    match (if http.ok = false then
             Except.error ("Gemini API error: " ++ toString http.status ++ " " ++ http.statusText)
           else
             match parseResponse http.body (if size = "" then "1024x1024" else size) with
             | some r => Except.ok r
             | none => Except.error "Unable to parse image from Gemini response. Expected format: candidates[0].content.parts[].inline_data.data") with
    | Except.ok r => Except.ok r
    | Except.error m => Except.error ("Image generation failed: " ++ m)

/-! ### The spec's view of response parsing: an ordered list of pure shape
functions, first match wins -/

/-- Shape 0 — the documented nested candidates shape. -/
def shapeCandidates (r : GeminiResponse) : Option (String × ImgFormat) :=
  match r.candidates with
  | some cs => (searchCandidates cs).map (fun s => (s, ImgFormat.base64))
  | none => none

/-- Shape 1 — direct string `image` field, tagged by `http` prefix. -/
def shapeImageField (r : GeminiResponse) : Option (String × ImgFormat) :=
  (truthyField r.image).map
    (fun s => (s, if strStartsWith s "http" then ImgFormat.url else ImgFormat.base64))

/-- Shape 2 — generic `data` field, tagged by `http` prefix. -/
def shapeDataField (r : GeminiResponse) : Option (String × ImgFormat) :=
  (truthyField r.data).map
    (fun s => (s, if strStartsWith s "http" then ImgFormat.url else ImgFormat.base64))

/-- Shape 3 — `url` field, always tagged `url`. -/
def shapeUrlField (r : GeminiResponse) : Option (String × ImgFormat) :=
  (truthyField r.url).map (fun s => (s, ImgFormat.url))

/-! ## Input validation (`src/utils/validate.ts`, zod schemas) -/

def styleEnum : List String := ["illustration", "3d", "flat", "photoreal", "anime", "pixel"]
def sizeEnum : List String := ["1024x1024", "1024x1536", "1536x1024"]
def iconSizeEnum : List String := ["256x256", "512x512"]
def backgroundEnum : List String := ["transparent", "solid"]
def outputFormatEnum : List String := ["png", "webp"]
def themeEnum : List String := ["minimal", "playful", "corporate"]

/-- A zod enum with a default: absent picks the default, present values must
be members. -/
def enumField (v : Option String) (allowed : List String) (dflt : String) : Option String :=
  match v with
  | none => some dflt
  | some s => if s ∈ allowed then some s else none

/-- `z.string().min(lo).max(hi)` on a required field. -/
def boundedString (v : Option String) (lo hi : Nat) : Option String :=
  match v with
  | none => none
  | some s => if lo ≤ s.length ∧ s.length ≤ hi then some s else none

/-- `z.string().min(lo)` on a required field. -/
def minString (v : Option String) (lo : Nat) : Option String :=
  match v with
  | none => none
  | some s => if lo ≤ s.length then some s else none

/-- `z.string().max(hi).optional()`. -/
def optBounded (v : Option String) (hi : Nat) : Option (Option String) :=
  match v with
  | none => some none
  | some s => if s.length ≤ hi then some (some s) else none

structure RawImageArgs where
  prompt : Option String
  style : Option String
  size : Option String
  background : Option String
  output_format : Option String
  output_path : Option String
deriving DecidableEq, Repr

structure GenerateImageInput where
  prompt : String
  style : String
  size : String
  background : String
  output_format : String
  output_path : Option String
deriving DecidableEq, Repr

def parseGenerateImageInput (a : RawImageArgs) : Option GenerateImageInput :=
  match boundedString a.prompt 1 2000, enumField a.style styleEnum "illustration",
      enumField a.size sizeEnum "1024x1024", enumField a.background backgroundEnum "solid",
      enumField a.output_format outputFormatEnum "png" with
  | some p, some st, some sz, some bg, some fmt =>
    some ⟨p, st, sz, bg, fmt, a.output_path⟩
  | _, _, _, _, _ => none

structure RawIconArgs where
  concept : Option String
  theme : Option String
  size : Option String
  output_format : Option String
deriving DecidableEq, Repr

structure GenerateIconInput where
  concept : String
  theme : String
  size : String
  output_format : String
deriving DecidableEq, Repr

def parseGenerateIconInput (a : RawIconArgs) : Option GenerateIconInput :=
  match boundedString a.concept 1 2000, enumField a.theme themeEnum "minimal",
      enumField a.size iconSizeEnum "512x512",
      enumField a.output_format outputFormatEnum "png" with
  | some c, some th, some sz, some fmt => some ⟨c, th, sz, fmt⟩
  | _, _, _, _ => none

structure RawHeroArgs where
  product_name : Option String
  tagline : Option String
  vibe : Option String
  size : Option String
  output_format : Option String
deriving DecidableEq, Repr

structure GenerateHeroInput where
  product_name : String
  tagline : String
  vibe : Option String
  size : String
  output_format : String
deriving DecidableEq, Repr

def parseGenerateHeroInput (a : RawHeroArgs) : Option GenerateHeroInput :=
  match boundedString a.product_name 1 200, boundedString a.tagline 1 500,
      optBounded a.vibe 200, enumField a.size sizeEnum "1536x1024",
      enumField a.output_format outputFormatEnum "png" with
  | some pn, some tg, some vb, some sz, some fmt => some ⟨pn, tg, vb, sz, fmt⟩
  | _, _, _, _, _ => none

structure RawBeautifyArgs where
  input_image_path : Option String
  goal : Option String
  output_format : Option String
deriving DecidableEq, Repr

structure BeautifyInput where
  input_image_path : String
  goal : String
  output_format : String
deriving DecidableEq, Repr

def parseBeautifyInput (a : RawBeautifyArgs) : Option BeautifyInput :=
  match minString a.input_image_path 1, boundedString a.goal 1 1000,
      enumField a.output_format outputFormatEnum "png" with
  | some p, some g, some fmt => some ⟨p, g, fmt⟩
  | _, _, _ => none

/-! ## Tool handlers and dispatch (`src/mcp/server.ts`) -/

/-- The `arguments` object of an incoming tool call, as seen by each
handler's zod parse. -/
inductive ToolCallArgs where
  | image (a : RawImageArgs)
  | icon (a : RawIconArgs)
  | hero (a : RawHeroArgs)
  | beautify (a : RawBeautifyArgs)
  | malformed
deriving DecidableEq, Repr

def parseImageArgs : ToolCallArgs → Option GenerateImageInput
  | ToolCallArgs.image a => parseGenerateImageInput a
  | _ => none

def parseIconArgs : ToolCallArgs → Option GenerateIconInput
  | ToolCallArgs.icon a => parseGenerateIconInput a
  | _ => none

def parseHeroArgs : ToolCallArgs → Option GenerateHeroInput
  | ToolCallArgs.hero a => parseGenerateHeroInput a
  | _ => none

def parseBeautifyArgs : ToolCallArgs → Option BeautifyInput
  | ToolCallArgs.beautify a => parseBeautifyInput a
  | _ => none

structure ImageOutput where
  ok : Bool
  file_path : String
  mime_type : String
  width : Nat
  height : Nat
deriving DecidableEq, Repr

/-- The structured content a handler returns on its non-throwing paths
(the object later `JSON.stringify`-ed into the response text). -/
inductive ToolPayload where
  | image (o : ImageOutput)
  | heroDegraded (suggested_prompt message : String)
  | beautify (message : String) (suggested_steps : List String) (note : String)
deriving DecidableEq, Repr

instance {ε α : Type} [DecidableEq ε] [DecidableEq α] : DecidableEq (Except ε α) := fun a b =>
  match a, b with
  | Except.error e₁, Except.error e₂ =>
    if h : e₁ = e₂ then isTrue (by rw [h]) else isFalse (by intro hc; cases hc; exact h rfl)
  | Except.ok a₁, Except.ok a₂ =>
    if h : a₁ = a₂ then isTrue (by rw [h]) else isFalse (by intro hc; cases hc; exact h rfl)
  | Except.error _, Except.ok _ => isFalse (by intro hc; cases hc)
  | Except.ok _, Except.error _ => isFalse (by intro hc; cases hc)

/-- A handler's outcome together with its observable effects: the absolute
paths written to disk and the number of `provider.generateImage` invocations. -/
structure HandlerOut where
  res : Except String ToolPayload
  writes : List String
  providerCalls : Nat
deriving DecidableEq, Repr

/-- The message of a zod validation throw (opaque in this model). -/
def invalidArgsMsg : String := "Invalid arguments"

def pathValidateMsg : String := "Invalid output path: must be within outputs directory"

def pathTraversalMsg : String := "Invalid output path: path traversal detected"

/-- `writeBase64Image`: `safeJoinOutputs` then `fs.writeFile`; the write is
recorded as an effect. -/
def writeBase64Image (filename : String) : Except String (String × List String) :=
  match safeJoinOutputs filename with
  | some p => Except.ok (p, [p])
  | none => Except.error pathTraversalMsg

/-- `downloadImage`: fetch the URL (outcome supplied by the model context),
then `writeImageBuffer`, which also goes through `safeJoinOutputs`. -/
def downloadImage (dlOk : Bool) (dlStatusText : String) (filename : String) :
    Except String (String × List String) :=
  if dlOk = false then Except.error ("Failed to download image: " ++ dlStatusText)
  else
    match safeJoinOutputs filename with
    | some p => Except.ok (p, [p])
    | none => Except.error pathTraversalMsg

/-- The per-call environment: clock, provider configuration, the remote's
answer, the generated-filename inputs, the download outcome. -/
structure Ctx where
  now : Nat
  cfg : GeminiConfig
  http : HttpResult
  genTs : String
  genHash : String
  dlOk : Bool
  dlStatusText : String
deriving DecidableEq, Repr

/-- The shared "save image" tail of the three generating handlers. -/
def saveImage (ctx : Ctx) (result : ImageGenerationResult) (filename : String) :
    Except String (String × List String) :=
  match result.format with
  | ImgFormat.base64 => writeBase64Image filename
  | ImgFormat.url => downloadImage ctx.dlOk ctx.dlStatusText filename

def themeDescription (theme : String) : String :=
  if theme = "minimal" then "minimalist, clean lines, simple shapes, modern"
  else if theme = "playful" then "fun, colorful, rounded shapes, friendly"
  else "professional, sleek, business-like, polished"

def iconPrompt (input : GenerateIconInput) : String :=
  "A " ++ themeDescription input.theme ++ " icon representing: " ++ input.concept
    ++ ". Icon design, centered, clean background."

def heroPrompt (input : GenerateHeroInput) : String :=
  let vibeText :=
    match input.vibe with
    | some v => ", " ++ v ++ " vibe"
    | none => ""
  "Hero banner image for \x22" ++ input.product_name ++ "\x22. " ++ input.tagline ++ vibeText
    ++ ". Professional, eye-catching, suitable for website header."

def handleGenerateImage (ctx : Ctx) (args : ToolCallArgs) : HandlerOut :=
  match parseImageArgs args with
  | none => ⟨Except.error invalidArgsMsg, [], 0⟩
  | some input =>
    match (match input.output_path with
           | some op =>
             match validateOutputPath op with
             | some _ => Except.ok op
             | none => Except.error pathValidateMsg
           | none =>
             Except.ok (generateFilename "generate_image" input.output_format
               ctx.genTs ctx.genHash)) with
    | Except.error m => ⟨Except.error m, [], 0⟩
    | Except.ok filename =>
      match geminiGenerateImage ctx.cfg ctx.http input.size with
      | Except.error m => ⟨Except.error m, [], 1⟩
      | Except.ok result =>
        match saveImage ctx result filename with
        | Except.error m => ⟨Except.error m, [], 1⟩
        | Except.ok pw =>
          ⟨Except.ok (ToolPayload.image
              ⟨true, toRelativePath pw.1, getMimeType input.output_format,
               result.width, result.height⟩),
           pw.2, 1⟩

def handleGenerateIcon (ctx : Ctx) (args : ToolCallArgs) : HandlerOut :=
  match parseIconArgs args with
  | none => ⟨Except.error invalidArgsMsg, [], 0⟩
  | some input =>
    match geminiGenerateImage ctx.cfg ctx.http input.size with
    | Except.error m => ⟨Except.error m, [], 1⟩
    | Except.ok result =>
      match saveImage ctx result
          (generateFilename "generate_icon" input.output_format ctx.genTs ctx.genHash) with
      | Except.error m => ⟨Except.error m, [], 1⟩
      | Except.ok pw =>
        ⟨Except.ok (ToolPayload.image
            ⟨true, toRelativePath pw.1, getMimeType input.output_format,
             (parseSize input.size).1, (parseSize input.size).2⟩),
         pw.2, 1⟩

def heroDegradedMsg : String :=
  "Image provider not configured. Configure GEMINI_API_KEY to generate images."

def handleGenerateHero (ctx : Ctx) (args : ToolCallArgs) : HandlerOut :=
  match parseHeroArgs args with
  | none => ⟨Except.error invalidArgsMsg, [], 0⟩
  | some input =>
    if isConfigured ctx.cfg = false then
      ⟨Except.ok (ToolPayload.heroDegraded (heroPrompt input) heroDegradedMsg), [], 0⟩
    else
      match geminiGenerateImage ctx.cfg ctx.http input.size with
      | Except.error m => ⟨Except.error m, [], 1⟩
      | Except.ok result =>
        match saveImage ctx result
            (generateFilename "generate_hero" input.output_format ctx.genTs ctx.genHash) with
        | Except.error m => ⟨Except.error m, [], 1⟩
        | Except.ok pw =>
          ⟨Except.ok (ToolPayload.image
              ⟨true, toRelativePath pw.1, getMimeType input.output_format,
               result.width, result.height⟩),
           pw.2, 1⟩

def beautifySuggestions : List String :=
  ["Increase whitespace and padding for a cleaner look",
   "Use a consistent color palette throughout the UI",
   "Improve typography hierarchy with varied font sizes",
   "Add subtle shadows or borders to define sections",
   "Ensure proper alignment of all elements",
   "Consider using rounded corners for a modern feel",
   "Optimize button sizes and spacing for better UX"]

def handleBeautifyScreenshot (args : ToolCallArgs) : HandlerOut :=
  match parseBeautifyArgs args with
  | none => ⟨Except.error invalidArgsMsg, [], 0⟩
  | some input =>
    match validateOutputPath input.input_image_path with
    | none => ⟨Except.error "Input image must be in outputs/ directory", [], 0⟩
    | some _ =>
      ⟨Except.ok (ToolPayload.beautify
          "Beautify screenshot is currently a stub implementation"
          beautifySuggestions
          "To implement image editing, integrate an image manipulation API or library"),
       [], 0⟩

/-- The per-tool timestamp map (`rateLimitMap`), read through first-match
lookup. -/
def getTimestamps (st : List (String × List Nat)) (name : String) : List Nat :=
  match st.lookup name with
  | some ts => ts
  | none => []

def setTimestamps (st : List (String × List Nat)) (name : String) (ts : List Nat) :
    List (String × List Nat) :=
  (name, ts) :: st

def rateLimitMsg : String :=
  "Rate limit exceeded: max " ++ toString RATE_LIMIT_MAX ++ " requests per minute"

def knownTools : List String :=
  ["generate_image", "generate_icon", "generate_hero", "beautify_screenshot"]

/-- The `switch` of the `CallToolRequestSchema` handler body (inside the
`try`). -/
def dispatchInner (ctx : Ctx) (name : String) (args : ToolCallArgs) : HandlerOut :=
  if name = "generate_image" then handleGenerateImage ctx args
  else if name = "generate_icon" then handleGenerateIcon ctx args
  else if name = "generate_hero" then handleGenerateHero ctx args
  else if name = "beautify_screenshot" then handleBeautifyScreenshot args
  else ⟨Except.error ("Unknown tool: " ++ name), [], 0⟩

/-- What the dispatch boundary returns: the JSON-stringified object is either
a handler payload or `{ok:false, error:<message>}`. -/
inductive BoundaryPayload where
  | success (p : ToolPayload)
  | failure (error : String)
deriving DecidableEq, Repr

structure DispatchResult where
  payload : BoundaryPayload
  state : List (String × List Nat)
  writes : List String
  providerCalls : Nat
deriving DecidableEq, Repr

/-- The full `CallToolRequestSchema` handler: rate-limit check first (its
successful mutation of the map survives later failures), then the tool
switch; every `Except.error` escaping the body is caught and converted to the
uniform failure payload. -/
def dispatch (ctx : Ctx) (st : List (String × List Nat)) (name : String)
    (args : ToolCallArgs) : DispatchResult :=
  match checkRateLimit ctx.now (getTimestamps st name) with
  | none => ⟨BoundaryPayload.failure rateLimitMsg, st, [], 0⟩
  | some ts' =>
    match (dispatchInner ctx name args).res with
    | Except.ok p =>
      ⟨BoundaryPayload.success p, setTimestamps st name ts',
       (dispatchInner ctx name args).writes, (dispatchInner ctx name args).providerCalls⟩
    | Except.error m =>
      ⟨BoundaryPayload.failure m, setTimestamps st name ts',
       (dispatchInner ctx name args).writes, (dispatchInner ctx name args).providerCalls⟩

/-! ## Supporting lemmas for the claims -/

theorem strStartsWith_out_slash (b : String) :
    strStartsWith (OUTPUTS_PATH ++ "/" ++ b) OUTPUTS_PATH = true := by
  rw [strStartsWith, List.isPrefixOf_iff_prefix]
  rw [show (OUTPUTS_PATH ++ "/" ++ b).data = OUTPUTS_PATH.data ++ '/' :: b.data from by
    simp [String.data_append]]
  exact List.prefix_append _ _

/-- A slash-free nonempty string is its own basename. -/
theorem basenameStr_id (n : String) (hsl : '/' ∉ n.data) (hne : n ≠ "") :
    basenameStr n = n := by
  have hnd : n.data ≠ [] := fun h => hne (String.ext h)
  rw [basenameStr, splitChar_eq_single '/' _ hsl]
  rw [show List.filter (fun p => decide (p ≠ [])) [n.data] = [n.data] from by
    simp [List.filter, hnd]]
  rfl

/-- Whatever `safeJoinOutputs` returns is the outputs root or sits directly
below it, and in particular passes the string-prefix containment check. -/
theorem safeJoin_some_shape (f p : String) (h : safeJoinOutputs f = some p) :
    strStartsWith p OUTPUTS_PATH = true ∧
    (p = OUTPUTS_PATH ∨ ∃ b, p = OUTPUTS_PATH ++ "/" ++ b) := by
  rw [safeJoinOutputs_eval f] at h
  by_cases h1 : basenameStr f = ".."
  · rw [if_pos h1] at h
    cases h
  · rw [if_neg h1] at h
    by_cases h2 : basenameStr f = "." ∨ basenameStr f = "" ∨ basenameStr f = "/"
    · rw [if_pos h2] at h
      cases h
      refine ⟨?_, Or.inl rfl⟩
      rw [strStartsWith]
      exact List.isPrefixOf_iff_prefix.mpr ( List.prefix_refl _)
    · rw [if_neg h2] at h
      cases h
      exact ⟨strStartsWith_out_slash _, Or.inr ⟨basenameStr f, rfl⟩⟩

/-- A successful save writes exactly the one path `safeJoinOutputs` produced. -/
theorem saveImage_ok (ctx : Ctx) (result : ImageGenerationResult) (filename : String)
    (pw : String × List String) (h : saveImage ctx result filename = Except.ok pw) :
    pw.2 = [pw.1] ∧ safeJoinOutputs filename = some pw.1 := by
  rw [saveImage] at h
  cases hf : result.format with
  | base64 =>
    rw [hf, writeBase64Image] at h
    cases hs : safeJoinOutputs filename with
    | none => rw [hs] at h; cases h
    | some p =>
      rw [hs] at h
      cases h
      exact ⟨rfl, rfl⟩
  | url =>
    rw [hf, downloadImage] at h
    by_cases hd : ctx.dlOk = false
    · rw [if_pos hd] at h; cases h
    · rw [if_neg hd] at h
      cases hs : safeJoinOutputs filename with
      | none => rw [hs] at h; cases h
      | some p =>
        rw [hs] at h
        cases h
        exact ⟨rfl, rfl⟩

/-- The common closing arguments: the error branches of a handler carry no
writes, and a successful save contributes exactly its safe-joined path. -/
theorem handleGenerateImage_writes (ctx : Ctx) (args : ToolCallArgs) :
    (∀ p ∈ (handleGenerateImage ctx args).writes, ∃ f, safeJoinOutputs f = some p) ∧
    (∀ m, (handleGenerateImage ctx args).res = Except.error m →
      (handleGenerateImage ctx args).writes = []) := by
  rw [handleGenerateImage]
  split
  · simp
  · split
    · simp
    · split
      · simp
      · split
        · simp
        · rename_i pw hs
          obtain ⟨hw, hj⟩ := saveImage_ok _ _ _ _ hs
          refine ⟨?_, ?_⟩
          · intro p hp2
            have hp3 : p ∈ pw.2 := hp2
            rw [hw] at hp3
            rcases List.mem_singleton.mp hp3 with rfl
            exact ⟨_, hj⟩
          · intro m hm
            simp at hm

theorem handleGenerateIcon_writes (ctx : Ctx) (args : ToolCallArgs) :
    (∀ p ∈ (handleGenerateIcon ctx args).writes, ∃ f, safeJoinOutputs f = some p) ∧
    (∀ m, (handleGenerateIcon ctx args).res = Except.error m →
      (handleGenerateIcon ctx args).writes = []) := by
  rw [handleGenerateIcon]
  split
  · simp
  · split
    · simp
    · split
      · simp
      · rename_i pw hs
        obtain ⟨hw, hj⟩ := saveImage_ok _ _ _ _ hs
        refine ⟨?_, ?_⟩
        · intro p hp2
          have hp3 : p ∈ pw.2 := hp2
          rw [hw] at hp3
          rcases List.mem_singleton.mp hp3 with rfl
          exact ⟨_, hj⟩
        · intro m hm
          simp at hm

theorem handleGenerateHero_writes (ctx : Ctx) (args : ToolCallArgs) :
    (∀ p ∈ (handleGenerateHero ctx args).writes, ∃ f, safeJoinOutputs f = some p) ∧
    (∀ m, (handleGenerateHero ctx args).res = Except.error m →
      (handleGenerateHero ctx args).writes = []) := by
  rw [handleGenerateHero]
  split
  · simp
  · split
    · simp
    · split
      · simp
      · split
        · simp
        · rename_i pw hs
          obtain ⟨hw, hj⟩ := saveImage_ok _ _ _ _ hs
          refine ⟨?_, ?_⟩
          · intro p hp2
            have hp3 : p ∈ pw.2 := hp2
            rw [hw] at hp3
            rcases List.mem_singleton.mp hp3 with rfl
            exact ⟨_, hj⟩
          · intro m hm
            simp at hm

theorem handleBeautifyScreenshot_writes (args : ToolCallArgs) :
    (∀ p ∈ (handleBeautifyScreenshot args).writes, ∃ f, safeJoinOutputs f = some p) ∧
    (∀ m, (handleBeautifyScreenshot args).res = Except.error m →
      (handleBeautifyScreenshot args).writes = []) := by
  rw [handleBeautifyScreenshot]
  split
  · simp
  · split <;> simp

theorem dispatchInner_writes (ctx : Ctx) (name : String) (args : ToolCallArgs) :
    (∀ p ∈ (dispatchInner ctx name args).writes, ∃ f, safeJoinOutputs f = some p) ∧
    (∀ m, (dispatchInner ctx name args).res = Except.error m →
      (dispatchInner ctx name args).writes = []) := by
  rw [dispatchInner]
  by_cases h1 : name = "generate_image"
  · rw [if_pos h1]
    exact handleGenerateImage_writes ctx args
  · rw [if_neg h1]
    by_cases h2 : name = "generate_icon"
    · rw [if_pos h2]
      exact handleGenerateIcon_writes ctx args
    · rw [if_neg h2]
      by_cases h3 : name = "generate_hero"
      · rw [if_pos h3]
        exact handleGenerateHero_writes ctx args
      · rw [if_neg h3]
        by_cases h4 : name = "beautify_screenshot"
        · rw [if_pos h4]
          exact handleBeautifyScreenshot_writes args
        · rw [if_neg h4]
          exact ⟨fun p hp => absurd hp (List.not_mem_nil p), fun m _ => rfl⟩

/-! ## Witness fixtures -/

/-- A provider response in the documented nested shape. -/
def respNested : GeminiResponse :=
  ⟨some [⟨some ⟨some [⟨some ⟨some "aW1hZ2ViYXNlNjQ"⟩⟩]⟩⟩], none, none, none, none⟩

/-- A provider response whose only populated field is the legacy `images`
array. -/
def respImagesOnly : GeminiResponse :=
  ⟨none, none, none, none, some ["http://example.com/a.png"]⟩

def cfgOk : GeminiConfig :=
  ⟨"test-key", "https://generativelanguage.googleapis.com", "gemini-2.5-flash-image"⟩

def cfgNoKey : GeminiConfig :=
  ⟨"", "https://generativelanguage.googleapis.com", "gemini-2.5-flash-image"⟩

def ctxOk : Ctx :=
  ⟨0, cfgOk, ⟨true, 200, "OK", respNested⟩, "2026-10-11T00:00:00.000Z", "abcd1234", true, "OK"⟩

def ctxNoKey : Ctx :=
  ⟨0, cfgNoKey, ⟨true, 200, "OK", respNested⟩, "2026-10-11T00:00:00.000Z", "abcd1234", true, "OK"⟩

/-- A context whose remote call fails with HTTP 500. -/
def ctxErr : Ctx :=
  ⟨0, cfgOk, ⟨false, 500, "Internal Server Error", respNested⟩,
   "2026-10-11T00:00:00.000Z", "abcd1234", true, "OK"⟩

def iconArgsW : RawIconArgs := ⟨some "a rocket", none, none, none⟩

def heroArgsW : RawHeroArgs := ⟨some "Acme", some "Ship faster", none, none, none⟩

def heroInputW : GenerateHeroInput := ⟨"Acme", "Ship faster", none, "1536x1024", "png"⟩

def imageArgsW : RawImageArgs :=
  ⟨some "a rocket", none, none, none, none, some "outputs/a/b.png"⟩

/-! ## The claims -/

/-- C1: For every tool invocation that persists a file (via safeJoin of a
generated filename or via the validate check of a caller-supplied path), the
final written file path is a descendant of the configured output directory —
it passes the canonical string-prefix containment check and is the outputs
root or a direct child of it — and any request that fails (in particular one
whose path falls outside the output directory and is refused by
`validateOutputPath` or `safeJoinOutputs`) performs no write at all. -/
theorem tool_writes_confined (ctx : Ctx) (st : List (String × List Nat)) (name : String)
    (args : ToolCallArgs) :
    (∀ p ∈ (dispatch ctx st name args).writes,
       strStartsWith p OUTPUTS_PATH = true ∧
       (p = OUTPUTS_PATH ∨ ∃ b, p = OUTPUTS_PATH ++ "/" ++ b)) ∧
    (∀ m, (dispatch ctx st name args).payload = BoundaryPayload.failure m →
       (dispatch ctx st name args).writes = []) := by
  rw [dispatch]
  split
  · exact ⟨fun p hp => absurd hp (List.not_mem_nil p), fun m _ => rfl⟩
  · obtain ⟨hw, herr⟩ := dispatchInner_writes ctx name args
    split
    · refine ⟨?_, ?_⟩
      · intro q hq
        obtain ⟨f, hf⟩ := hw q hq
        exact safeJoin_some_shape f q hf
      · intro m hm
        cases hm
    · rename_i m' hres
      refine ⟨?_, ?_⟩
      · intro q hq
        have hnil := herr m' hres
        rw [hnil] at hq
        exact absurd hq (List.not_mem_nil q)
      · intro m _
        exact herr m' hres

/-- C1 witness: a `generate_image` call with caller-supplied
`output_path = "outputs/a/b.png"` against a successful provider writes exactly
one file, and the theorem places it under the outputs root. -/
theorem tool_writes_confined_witness :
    strStartsWith "/app/banana-mcp/outputs/b.png" OUTPUTS_PATH = true ∧
    ("/app/banana-mcp/outputs/b.png" = OUTPUTS_PATH ∨
      ∃ b, "/app/banana-mcp/outputs/b.png" = OUTPUTS_PATH ++ "/" ++ b) :=
  (tool_writes_confined ctxOk [] "generate_image" (ToolCallArgs.image imageArgsW)).1
    "/app/banana-mcp/outputs/b.png" (by decide)

/-- C2 (amended): response parsing first attempts the documented nested shape
(candidates list, each with content parts, each part possibly holding inline
image data) and on failure falls back, in this order, through exactly three
legacy shapes — direct string `image` field, generic `data` field, `url`
field — returning the first match and throwing only after all four shapes are
exhausted; the legacy `images` array of the claim is not among the fallbacks. -/
theorem parseResponse_eq_shapes (r : GeminiResponse) (size : String) :
    parseResponse r size =
      ((((shapeCandidates r).or (shapeImageField r)).or (shapeDataField r)).or
        (shapeUrlField r)).map
        (fun sf => ⟨sf.1, sf.2, (parseSize size).1, (parseSize size).2⟩) := by
  rw [parseResponse, shapeCandidates, shapeImageField, shapeDataField, shapeUrlField]
  cases hc : r.candidates with
  | some cs =>
    cases hs : searchCandidates cs with
    | some s => simp [hs]
    | none =>
      cases hi : truthyField r.image with
      | some img => simp [hs, hi]
      | none =>
        cases hd : truthyField r.data with
        | some d => simp [hs, hi, hd]
        | none =>
          cases hu : truthyField r.url with
          | some u => simp [hs, hi, hd, hu]
          | none => simp [hs, hi, hd, hu]
  | none =>
    cases hi : truthyField r.image with
    | some img => simp [hi]
    | none =>
      cases hd : truthyField r.data with
      | some d => simp [hi, hd]
      | none =>
        cases hu : truthyField r.url with
        | some u => simp [hi, hd, hu]
        | none => simp [hi, hd, hu]

/-- C2 counterexample: a response whose only populated field is a nonempty
legacy `images` array is not parsed — the parser throws instead of returning
its first element, so the claimed fifth fallback shape does not exist in the
code. -/
theorem parseResponse_images_not_consulted :
    respImagesOnly.images = some ["http://example.com/a.png"] ∧
    parseResponse respImagesOnly "1024x1024" = none := by
  exact ⟨rfl, rfl⟩

/-- C3: on each check the rate limiter prunes timestamps older than the
60-second window, fails exactly when the remaining count is at least the
capacity (20), and otherwise records the new timestamp; consequently, with
all calls inside one 60-second window, 20 calls to the same tool succeed, the
21st fails, and a later call made once the whole window has elapsed succeeds
again. -/
theorem rate_limit_window_behavior :
    (∀ now ts st', checkRateLimit now ts = some st' →
        st' = ts.filter (fun t => now - t < RATE_LIMIT_WINDOW) ++ [now] ∧
        (ts.filter (fun t => now - t < RATE_LIMIT_WINDOW)).length < RATE_LIMIT_MAX) ∧
    (∀ now ts, checkRateLimit now ts = none ↔
        RATE_LIMIT_MAX ≤ (ts.filter (fun t => now - t < RATE_LIMIT_WINDOW)).length) ∧
    (∀ a (ts : List Nat) t21, ts.length = RATE_LIMIT_MAX →
        (∀ t ∈ ts, a ≤ t ∧ t < a + RATE_LIMIT_WINDOW) →
        a ≤ t21 → t21 < a + RATE_LIMIT_WINDOW →
        runCalls ts [] = some ts ∧ checkRateLimit t21 ts = none) ∧
    (∀ later ts, (∀ t ∈ ts, t + RATE_LIMIT_WINDOW ≤ later) →
        checkRateLimit later ts = some [later]) := by
  refine ⟨?_, ?_, ?_, ?_⟩
  · intro now ts st' h
    rw [checkRateLimit] at h
    by_cases hc : RATE_LIMIT_MAX ≤ (ts.filter (fun t => now - t < RATE_LIMIT_WINDOW)).length
    · rw [if_pos hc] at h
      cases h
    · rw [if_neg hc] at h
      cases h
      exact ⟨rfl, Nat.lt_of_not_le hc⟩
  · intro now ts
    rw [checkRateLimit]
    by_cases hc : RATE_LIMIT_MAX ≤ (ts.filter (fun t => now - t < RATE_LIMIT_WINDOW)).length
    · rw [if_pos hc]
      simp [hc]
    · rw [if_neg hc]
      simp [hc]
  · intro a ts t21 hlen hwin h21a h21b
    constructor
    · have := runCalls_all_within a ts []
        (by intro x hx; simp only [List.nil_append] at hx; exact hwin x hx)
        (by simp [hlen])
      simpa using this
    · have hfilter : ts.filter (fun t => decide (t21 - t < RATE_LIMIT_WINDOW)) = ts := by
        apply List.filter_eq_self.mpr
        intro s hs
        have hsa := hwin s hs
        simp only [decide_eq_true_iff]
        omega
      rw [checkRateLimit]
      simp only [hfilter]
      rw [if_pos (by rw [hlen])]
  · intro later ts h
    exact checkRateLimit_after_window later ts h

/-- C3 witness: twenty calls at times 0..19 all succeed, the 21st call at
time 20 is rejected, and a call at time 60019 (after the window has passed
every recorded timestamp) succeeds. -/
theorem rate_limit_window_behavior_witness :
    runCalls (List.range 20) [] = some (List.range 20) ∧
    checkRateLimit 20 (List.range 20) = none ∧
    checkRateLimit 60019 (List.range 20) = some [60019] := by
  refine ⟨?_, ?_, ?_⟩
  · exact (rate_limit_window_behavior.2.2.1 0 (List.range 20) 20 (by decide)
      (by decide) (by decide) (by decide)).1
  · exact (rate_limit_window_behavior.2.2.1 0 (List.range 20) 20 (by decide)
      (by decide) (by decide) (by decide)).2
  · exact rate_limit_window_behavior.2.2.2 60019 (List.range 20) (by decide)

/-- C4 (amended): `safeJoinOutputs` does not reject `../../etc/passwd` or
filenames containing a path separator — it strips every directory component,
so `../../etc/passwd` is accepted and persisted as `outputs/passwd`; it fails
only when the stripped basename is `..`; every bare filename (one with no
separator, other than `.`, `..` and the empty string) is accepted and mapped
directly under the output root.  The separate `validateOutputPath` check is
the function that rejects `../../etc/passwd`. -/
theorem path_guard_sanitizes (f : String) :
    (basenameStr f = ".." → safeJoinOutputs f = none) ∧
    (basenameStr f ≠ ".." → ∃ p, safeJoinOutputs f = some p ∧
        strStartsWith p OUTPUTS_PATH = true) ∧
    (∀ name : String, '/' ∉ name.data → name ≠ "" → name ≠ "." → name ≠ ".." →
        safeJoinOutputs name = some (OUTPUTS_PATH ++ "/" ++ name)) ∧
    validateOutputPath "../../etc/passwd" = none ∧
    safeJoinOutputs "../../etc/passwd" = some (OUTPUTS_PATH ++ "/" ++ "passwd") := by
  refine ⟨?_, ?_, ?_, by decide, by decide⟩
  · intro h
    rw [safeJoinOutputs_eval, if_pos h]
  · intro h
    rw [safeJoinOutputs_eval, if_neg h]
    by_cases h2 : basenameStr f = "." ∨ basenameStr f = "" ∨ basenameStr f = "/"
    · rw [if_pos h2]
      refine ⟨OUTPUTS_PATH, rfl, ?_⟩
      rw [strStartsWith]
      exact List.isPrefixOf_iff_prefix.mpr ( List.prefix_refl _)
    · rw [if_neg h2]
      exact ⟨_, rfl, strStartsWith_out_slash _⟩
  · intro name hsl hne hdot hdd
    have hb : basenameStr name = name := basenameStr_id name hsl hne
    rw [safeJoinOutputs_eval, hb, if_neg hdd, if_neg (by
      push_neg
      refine ⟨hdot, hne, ?_⟩
      intro hcon
      rw [hcon] at hsl
      exact hsl (by decide))]

/-- C4 counterexample: the claim says the path guard rejects
`../../etc/passwd`, but `safeJoinOutputs` accepts it, silently mapping it to
`outputs/passwd`. -/
theorem path_guard_traversal_accepted :
    safeJoinOutputs "../../etc/passwd" ≠ none ∧
    safeJoinOutputs "../../etc/passwd" = some "/app/banana-mcp/outputs/passwd" := by
  exact ⟨by decide, by decide⟩

/-- C4 witness: a bare filename is accepted and lands under the output root;
`..` itself is refused. -/
theorem path_guard_sanitizes_witness :
    safeJoinOutputs "logo.png" = some (OUTPUTS_PATH ++ "/" ++ "logo.png") ∧
    safeJoinOutputs ".." = none :=
  ⟨(path_guard_sanitizes "logo.png").2.2.1 "logo.png" (by decide) (by decide) (by decide)
      (by decide),
   (path_guard_sanitizes "..").1 (by decide)⟩

/-- C5: for every valid `generate_hero` argument structure, if the provider is
unconfigured (no credential), the dispatcher returns the degraded
`{ok:false, suggested_prompt, message}` payload, the provider's
`generateImage` is never invoked (zero network calls) and nothing is written;
this is a returned payload, not a thrown error. -/
theorem hero_unconfigured_degraded (ctx : Ctx) (st : List (String × List Nat))
    (a : RawHeroArgs) (input : GenerateHeroInput) (ts' : List Nat)
    (hparse : parseGenerateHeroInput a = some input)
    (hkey : ctx.cfg.apiKey = "")
    (hrl : checkRateLimit ctx.now (getTimestamps st "generate_hero") = some ts') :
    dispatch ctx st "generate_hero" (ToolCallArgs.hero a) =
      ⟨BoundaryPayload.success (ToolPayload.heroDegraded (heroPrompt input) heroDegradedMsg),
       setTimestamps st "generate_hero" ts', [], 0⟩ := by
  have hconf : isConfigured ctx.cfg = false := by
    rw [isConfigured, hkey]
    simp
  have hinner : dispatchInner ctx "generate_hero" (ToolCallArgs.hero a) =
      ⟨Except.ok (ToolPayload.heroDegraded (heroPrompt input) heroDegradedMsg), [], 0⟩ := by
    rw [dispatchInner, if_neg (by decide), if_neg (by decide), if_pos rfl,
      handleGenerateHero]
    simp [parseHeroArgs, hparse, hconf]
  rw [dispatch, hrl, hinner]

/-- C5 witness: a concrete hero call with an empty `GEMINI_API_KEY` yields the
degraded payload with zero provider invocations and zero writes. -/
theorem hero_unconfigured_degraded_witness :
    dispatch ctxNoKey [] "generate_hero" (ToolCallArgs.hero heroArgsW) =
      ⟨BoundaryPayload.success (ToolPayload.heroDegraded (heroPrompt heroInputW) heroDegradedMsg),
       setTimestamps [] "generate_hero" [0], [], 0⟩ :=
  hero_unconfigured_degraded ctxNoKey [] heroArgsW heroInputW [0] (by decide) (by decide)
    (by decide)

/-- C6: the derived aspect-ratio tag is `1:1` exactly on squares; for
landscape (width > height) with ratio `r = width/height` it is `3:2` when
`r ∈ [1.4, 1.6]` (that is, `7·h ≤ 5·w ≤ 8·h`), `16:9` when `r ≥ 1.7`
(`17·h ≤ 10·w`), and `4:3` otherwise; portrait mirrors these bands as
`2:3` / `9:16` / `3:4`. -/
theorem aspect_ratio_bands (w h : Nat) (hw : 0 < w) (hh : 0 < h) :
    (w = h → getAspectRatio w h = "1:1") ∧
    (h < w → 7 * h ≤ 5 * w → 5 * w ≤ 8 * h → getAspectRatio w h = "3:2") ∧
    (h < w → 17 * h ≤ 10 * w → getAspectRatio w h = "16:9") ∧
    (h < w → (5 * w < 7 * h ∨ (8 * h < 5 * w ∧ 10 * w < 17 * h)) →
      getAspectRatio w h = "4:3") ∧
    (w < h → 7 * w ≤ 5 * h → 5 * h ≤ 8 * w → getAspectRatio w h = "2:3") ∧
    (w < h → 17 * w ≤ 10 * h → getAspectRatio w h = "9:16") ∧
    (w < h → (5 * h < 7 * w ∨ (8 * w < 5 * h ∧ 10 * h < 17 * w)) →
      getAspectRatio w h = "3:4") := by
  have hwQ : (0:ℚ) < (w:ℚ) := by exact_mod_cast hw
  have hhQ : (0:ℚ) < (h:ℚ) := by exact_mod_cast hh
  refine ⟨?_, ?_, ?_, ?_, ?_, ?_, ?_⟩
  · intro he
    rw [ getAspectRatio, if_pos (by exact_mod_cast he)]
  · intro hlt h1 h2
    have hltQ : (h:ℚ) < (w:ℚ) := by exact_mod_cast hlt
    have h1Q : (7:ℚ) * h ≤ 5 * w := by exact_mod_cast h1
    have h2Q : (5:ℚ) * w ≤ 8 * h := by exact_mod_cast h2
    have hb1 : (1.4:ℚ) ≤ (w:ℚ) / (h:ℚ) := by
      rw [le_div_iff₀ hhQ]
      linarith
    have hb2 : (w:ℚ) / (h:ℚ) ≤ 1.6 := by
      rw [div_le_iff₀ hhQ]
      linarith
    rw [ getAspectRatio, if_neg (by exact_mod_cast Nat.ne_of_gt hlt), if_pos hltQ,
      if_pos ⟨hb1, hb2⟩]
  · intro hlt h1
    have hltQ : (h:ℚ) < (w:ℚ) := by exact_mod_cast hlt
    have h1Q : (17:ℚ) * h ≤ 10 * w := by exact_mod_cast h1
    have hb : (1.7:ℚ) ≤ (w:ℚ) / (h:ℚ) := by
      rw [le_div_iff₀ hhQ]
      linarith
    have hnb : ¬((1.4:ℚ) ≤ (w:ℚ) / (h:ℚ) ∧ (w:ℚ) / (h:ℚ) ≤ 1.6) := by
      rintro ⟨-, hcon⟩
      rw [div_le_iff₀ hhQ] at hcon
      linarith
    rw [ getAspectRatio, if_neg (by exact_mod_cast Nat.ne_of_gt hlt), if_pos hltQ,
      if_neg hnb, if_pos hb]
  · intro hlt hcase
    have hltQ : (h:ℚ) < (w:ℚ) := by exact_mod_cast hlt
    have hnb : ¬((1.4:ℚ) ≤ (w:ℚ) / (h:ℚ) ∧ (w:ℚ) / (h:ℚ) ≤ 1.6) := by
      rcases hcase with hc | ⟨hc, -⟩
      · rintro ⟨hcon, -⟩
        rw [le_div_iff₀ hhQ] at hcon
        have hcQ : (5:ℚ) * w < 7 * h := by exact_mod_cast hc
        linarith
      · rintro ⟨-, hcon⟩
        rw [div_le_iff₀ hhQ] at hcon
        have hcQ : (8:ℚ) * h < 5 * w := by exact_mod_cast hc
        linarith
    have hnb2 : ¬((1.7:ℚ) ≤ (w:ℚ) / (h:ℚ)) := by
      intro hcon
      rw [le_div_iff₀ hhQ] at hcon
      rcases hcase with hc | ⟨-, hc⟩
      · have hcQ : (5:ℚ) * w < 7 * h := by exact_mod_cast hc
        linarith
      · have hcQ : (10:ℚ) * w < 17 * h := by exact_mod_cast hc
        linarith
    rw [ getAspectRatio, if_neg (by exact_mod_cast Nat.ne_of_gt hlt), if_pos hltQ,
      if_neg hnb, if_neg hnb2]
  · intro hlt h1 h2
    have hltQ : (w:ℚ) < (h:ℚ) := by exact_mod_cast hlt
    have h1Q : (7:ℚ) * w ≤ 5 * h := by exact_mod_cast h1
    have h2Q : (5:ℚ) * h ≤ 8 * w := by exact_mod_cast h2
    have hb1 : (1.4:ℚ) ≤ (h:ℚ) / (w:ℚ) := by
      rw [le_div_iff₀ hwQ]
      linarith
    have hb2 : (h:ℚ) / (w:ℚ) ≤ 1.6 := by
      rw [div_le_iff₀ hwQ]
      linarith
    rw [ getAspectRatio, if_neg (by exact_mod_cast Nat.ne_of_lt hlt),
      if_neg (not_lt.mpr (le_of_lt hltQ)), if_pos ⟨hb1, hb2⟩]
  · intro hlt h1
    have hltQ : (w:ℚ) < (h:ℚ) := by exact_mod_cast hlt
    have h1Q : (17:ℚ) * w ≤ 10 * h := by exact_mod_cast h1
    have hb : (1.7:ℚ) ≤ (h:ℚ) / (w:ℚ) := by
      rw [le_div_iff₀ hwQ]
      linarith
    have hnb : ¬((1.4:ℚ) ≤ (h:ℚ) / (w:ℚ) ∧ (h:ℚ) / (w:ℚ) ≤ 1.6) := by
      rintro ⟨-, hcon⟩
      rw [div_le_iff₀ hwQ] at hcon
      linarith
    rw [ getAspectRatio, if_neg (by exact_mod_cast Nat.ne_of_lt hlt),
      if_neg (not_lt.mpr (le_of_lt hltQ)), if_neg hnb, if_pos hb]
  · intro hlt hcase
    have hltQ : (w:ℚ) < (h:ℚ) := by exact_mod_cast hlt
    have hnb : ¬((1.4:ℚ) ≤ (h:ℚ) / (w:ℚ) ∧ (h:ℚ) / (w:ℚ) ≤ 1.6) := by
      rcases hcase with hc | ⟨hc, -⟩
      · rintro ⟨hcon, -⟩
        rw [le_div_iff₀ hwQ] at hcon
        have hcQ : (5:ℚ) * h < 7 * w := by exact_mod_cast hc
        linarith
      · rintro ⟨-, hcon⟩
        rw [div_le_iff₀ hwQ] at hcon
        have hcQ : (8:ℚ) * w < 5 * h := by exact_mod_cast hc
        linarith
    have hnb2 : ¬((1.7:ℚ) ≤ (h:ℚ) / (w:ℚ)) := by
      intro hcon
      rw [le_div_iff₀ hwQ] at hcon
      rcases hcase with hc | ⟨-, hc⟩
      · have hcQ : (5:ℚ) * h < 7 * w := by exact_mod_cast hc
        linarith
      · have hcQ : (10:ℚ) * h < 17 * w := by exact_mod_cast hc
        linarith
    rw [ getAspectRatio, if_neg (by exact_mod_cast Nat.ne_of_lt hlt),
      if_neg (not_lt.mpr (le_of_lt hltQ)), if_neg hnb, if_neg hnb2]

/-- C6 witness: the four concrete instances of the claim —
(1024,1024) → 1:1, (1536,1024) → 3:2 (ratio 1.5), (1024,1536) → 2:3, and the
exact landscape ratio 1.75 (1792×1024) → 16:9. -/
theorem aspect_ratio_bands_witness :
    getAspectRatio ((1024:ℕ):ℚ) ((1024:ℕ):ℚ) = "1:1" ∧
    getAspectRatio ((1536:ℕ):ℚ) ((1024:ℕ):ℚ) = "3:2" ∧
    getAspectRatio ((1024:ℕ):ℚ) ((1536:ℕ):ℚ) = "2:3" ∧
    getAspectRatio ((1792:ℕ):ℚ) ((1024:ℕ):ℚ) = "16:9" := by
  refine ⟨?_, ?_, ?_, ?_⟩
  · exact (aspect_ratio_bands 1024 1024 (by decide) (by decide)).1 rfl
  · exact (aspect_ratio_bands 1536 1024 (by decide) (by decide)).2.1 (by decide) (by decide)
      (by decide)
  · exact (aspect_ratio_bands 1024 1536 (by decide) (by decide)).2.2.2.2.1 (by decide)
      (by decide) (by decide)
  · exact (aspect_ratio_bands 1792 1024 (by decide) (by decide)).2.2.1 (by decide) (by decide)

/-- Supporting lemma: an unknown tool name falls through the whole switch. -/
theorem dispatchInner_unknown (ctx : Ctx) (name : String) (args : ToolCallArgs)
    (hname : name ∉ knownTools) :
    dispatchInner ctx name args = ⟨Except.error ("Unknown tool: " ++ name), [], 0⟩ := by
  simp only [knownTools, List.mem_cons, not_or, List.not_mem_nil, not_false_iff,
    and_true] at hname
  obtain ⟨h1, h2, h3, h4⟩ := hname
  rw [dispatchInner, if_neg h1, if_neg h2, if_neg h3, if_neg h4]

/-- C7: the dispatcher is total — it always returns a payload, either a
handler success or the uniform `{ok:false, error:<message>}` object; a
rate-limit rejection, any error thrown inside a handler (validation,
provider, path), and an unknown tool name are all caught at the boundary and
converted into that failure payload carrying exactly the thrown message, and
no exception propagates past `dispatch`. -/
theorem dispatch_uniform_error_boundary (ctx : Ctx) (st : List (String × List Nat))
    (name : String) (args : ToolCallArgs) :
    ((∃ p, (dispatch ctx st name args).payload = BoundaryPayload.success p) ∨
     (∃ m, (dispatch ctx st name args).payload = BoundaryPayload.failure m)) ∧
    (checkRateLimit ctx.now (getTimestamps st name) = none →
      (dispatch ctx st name args).payload = BoundaryPayload.failure rateLimitMsg) ∧
    (∀ ts', checkRateLimit ctx.now (getTimestamps st name) = some ts' →
      (∀ m, (dispatchInner ctx name args).res = Except.error m →
        (dispatch ctx st name args).payload = BoundaryPayload.failure m) ∧
      (∀ p, (dispatchInner ctx name args).res = Except.ok p →
        (dispatch ctx st name args).payload = BoundaryPayload.success p)) ∧
    (name ∉ knownTools → ∀ ts',
      checkRateLimit ctx.now (getTimestamps st name) = some ts' →
      (dispatch ctx st name args).payload =
        BoundaryPayload.failure ("Unknown tool: " ++ name)) := by
  rw [dispatch]
  cases hrl : checkRateLimit ctx.now (getTimestamps st name) with
  | none =>
    refine ⟨Or.inr ⟨rateLimitMsg, rfl⟩, fun _ => rfl, ?_, ?_⟩
    · intro ts' h
      cases h
    · intro _ ts' h
      cases h
  | some ts0 =>
    cases hres : (dispatchInner ctx name args).res with
    | ok p =>
      refine ⟨Or.inl ⟨p, rfl⟩, ?_, ?_, ?_⟩
      · intro h
        cases h
      · intro ts' _
        refine ⟨?_, ?_⟩
        · intro m hm
          cases hm
        · intro p' hp'
          cases hp'
          rfl
      · intro hname ts' _
        have h2 := dispatchInner_unknown ctx name args hname
        rw [h2] at hres
        cases hres
    | error m' =>
      refine ⟨Or.inr ⟨m', rfl⟩, ?_, ?_, ?_⟩
      · intro h
        cases h
      · intro ts' _
        refine ⟨?_, ?_⟩
        · intro m hm
          cases hm
          rfl
        · intro p' hp'
          cases hp'
      · intro hname ts' _
        have h2 := dispatchInner_unknown ctx name args hname
        rw [h2] at hres
        cases hres
        rfl

/-- C7 witness: a call with unknown tool name `bogus` produces the uniform
failure payload with the thrown message. -/
theorem dispatch_uniform_error_boundary_witness :
    (dispatch ctxOk [] "bogus" ToolCallArgs.malformed).payload =
      BoundaryPayload.failure ("Unknown tool: " ++ "bogus") :=
  (dispatch_uniform_error_boundary ctxOk [] "bogus" ToolCallArgs.malformed).2.2.2
    (by decide) [0] (by decide)

/-- Supporting lemma: `generateImage` reads the configuration only through
`isConfigured`, so two exchanges that agree on everything observable agree on
the result. -/
theorem geminiGenerateImage_congr (cfg₁ cfg₂ : GeminiConfig) (http : HttpResult)
    (size : String) (h : isConfigured cfg₁ = isConfigured cfg₂) :
    geminiGenerateImage cfg₁ http size = geminiGenerateImage cfg₂ http size := by
  rw [geminiGenerateImage, geminiGenerateImage, h]

/-- C8: the error message (indeed the whole observable outcome) of any tool
call is independent of the configured credential value: replacing the API key
by any other key with the same emptiness leaves every payload, error string,
write and call count unchanged — so no error message can contain (or depend
on) the credential. -/
theorem dispatch_credential_noninterference (c : Ctx) (k₁ k₂ : String)
    (st : List (String × List Nat)) (name : String) (args : ToolCallArgs)
    (hk : (k₁ = "") ↔ (k₂ = "")) :
    dispatch { c with cfg := { c.cfg with apiKey := k₁ } } st name args
      = dispatch { c with cfg := { c.cfg with apiKey := k₂ } } st name args := by
  obtain ⟨now, ⟨key, burl, mdl⟩, http, gts, ghash, dlo, dlt⟩ := c
  show dispatch ⟨now, ⟨k₁, burl, mdl⟩, http, gts, ghash, dlo, dlt⟩ st name args
      = dispatch ⟨now, ⟨k₂, burl, mdl⟩, http, gts, ghash, dlo, dlt⟩ st name args
  have hconf : isConfigured ⟨k₁, burl, mdl⟩ = isConfigured ⟨k₂, burl, mdl⟩ := by
    rw [isConfigured, isConfigured]
    simp only
    rw [show (decide (k₁ ≠ "")) = (decide (k₂ ≠ "")) from
      decide_eq_decide.mpr (not_congr hk)]
  have hgem : ∀ size, geminiGenerateImage ⟨k₁, burl, mdl⟩ http size
      = geminiGenerateImage ⟨k₂, burl, mdl⟩ http size :=
    fun size => geminiGenerateImage_congr _ _ http size hconf
  have hsave : ∀ r f, saveImage ⟨now, ⟨k₁, burl, mdl⟩, http, gts, ghash, dlo, dlt⟩ r f
      = saveImage ⟨now, ⟨k₂, burl, mdl⟩, http, gts, ghash, dlo, dlt⟩ r f :=
    fun r f => rfl
  rw [dispatch, dispatch]
  simp only [dispatchInner, handleGenerateImage, handleGenerateIcon, handleGenerateHero,
    handleBeautifyScreenshot, hgem, hsave, hconf]

/-- C8 witness: with a failing remote (HTTP 500), the entire outcome — in
particular the error message — is the same under credential `alpha` and
credential `beta`. -/
theorem dispatch_credential_noninterference_witness :
    dispatch { ctxErr with cfg := { ctxErr.cfg with apiKey := "alpha" } } []
        "generate_icon" (ToolCallArgs.icon iconArgsW)
      = dispatch { ctxErr with cfg := { ctxErr.cfg with apiKey := "beta" } } []
        "generate_icon" (ToolCallArgs.icon iconArgsW) :=
  dispatch_credential_noninterference ctxErr "alpha" "beta" [] "generate_icon"
    (ToolCallArgs.icon iconArgsW) (by decide)

/-- C9 (amended): for `generate_image` with a caller-supplied `output_path`, a
bare filename is rejected by the validate check (it resolves against the
project root) unless the name itself begins with `outputs` — the containment
test is a raw string-prefix comparison, so `outputsx` is accepted; an
accepted path of the form `outputs/<dirs>/<name>` is persisted as
`outputs/<name>`: every directory component of the supplied path is discarded
at write time, so the persisted path can differ from the validated one. -/
theorem output_path_validate_vs_persist :
    (∀ name : String, '/' ∉ name.data → ¬ ("outputs".data <+: name.data) →
        validateOutputPath name = none) ∧
    (∀ dirs n : String, '/' ∉ n.data → n ≠ "" → n ≠ "." → n ≠ ".." →
        writeBase64Image ("outputs/" ++ dirs ++ "/" ++ n)
          = Except.ok (OUTPUTS_PATH ++ "/" ++ n, [OUTPUTS_PATH ++ "/" ++ n])) ∧
    validateOutputPath "outputs/a/b.png" = some "/app/banana-mcp/outputs/a/b.png" ∧
    safeJoinOutputs "outputs/a/b.png" = some "/app/banana-mcp/outputs/b.png" := by
  refine ⟨?_, ?_, by decide, by decide⟩
  · exact validateOutputPath_bare
  · intro dirs n hsl hne hdot hdd
    have hb : basenameStr ("outputs/" ++ dirs ++ "/" ++ n) = n :=
      basenameStr_append ("outputs/" ++ dirs) n hsl hne
    have hj : safeJoinOutputs ("outputs/" ++ dirs ++ "/" ++ n)
        = some (OUTPUTS_PATH ++ "/" ++ n) := by
      rw [safeJoinOutputs_eval, hb, if_neg hdd, if_neg (by
        push_neg
        refine ⟨hdot, hne, ?_⟩
        intro hcon
        rw [hcon] at hsl
        exact hsl (by decide))]
    rw [writeBase64Image, hj]

/-- C9 counterexample: the bare filename `outputsx` (no directory component)
is accepted by the validate check, contradicting the claim that every bare
filename is rejected — the string-prefix containment test matches the sibling
path. -/
theorem validate_accepts_bare_outputsx :
    ('/' ∉ "outputsx".data) ∧
    validateOutputPath "outputsx" = some "/app/banana-mcp/outputsx" := by
  exact ⟨by decide, by decide⟩

/-- C9 witness: the typical bare filename `b.png` is rejected by validate,
while the accepted `outputs/a/b.png` is persisted as `outputs/b.png`. -/
theorem output_path_validate_vs_persist_witness :
    validateOutputPath "b.png" = none ∧
    writeBase64Image ("outputs/" ++ "a" ++ "/" ++ "b.png")
      = Except.ok (OUTPUTS_PATH ++ "/" ++ "b.png", [OUTPUTS_PATH ++ "/" ++ "b.png"]) :=
  ⟨output_path_validate_vs_persist.1 "b.png" (by decide) (by decide),
   output_path_validate_vs_persist.2.1 "a" "b.png" (by decide) (by decide) (by decide)
     (by decide)⟩

/-- C10: the rate-limit check runs and records a timestamp under the supplied
tool name before the name is matched, so a call with an unknown tool name
both returns the `{ok:false, error:'Unknown tool: <name>'}` payload and
consumes one unit of that name's quota: the new state maps the name to its
pruned timestamps with the current time appended. -/
theorem unknown_tool_consumes_quota (ctx : Ctx) (st : List (String × List Nat))
    (name : String) (args : ToolCallArgs) (ts' : List Nat)
    (hname : name ∉ knownTools)
    (hrl : checkRateLimit ctx.now (getTimestamps st name) = some ts') :
    dispatch ctx st name args =
      ⟨BoundaryPayload.failure ("Unknown tool: " ++ name),
       setTimestamps st name ts', [], 0⟩ ∧
    getTimestamps (setTimestamps st name ts') name = ts' ∧
    ts' = (getTimestamps st name).filter (fun t => ctx.now - t < RATE_LIMIT_WINDOW)
      ++ [ctx.now] := by
  refine ⟨?_, ?_, ?_⟩
  · rw [dispatch, hrl, dispatchInner_unknown ctx name args hname]
  · rw [getTimestamps, setTimestamps]
    simp [List.lookup]
  · rw [checkRateLimit] at hrl
    by_cases hc : RATE_LIMIT_MAX ≤
        ((getTimestamps st name).filter (fun t => ctx.now - t < RATE_LIMIT_WINDOW)).length
    · rw [if_pos hc] at hrl
      cases hrl
    · rw [if_neg hc] at hrl
      cases hrl
      rfl

/-- C10 witness: a call to the unknown tool `bogus` on an empty limiter state
fails with the uniform payload and leaves a recorded timestamp behind. -/
theorem unknown_tool_consumes_quota_witness :
    dispatch ctxOk [] "bogus" ToolCallArgs.malformed =
      ⟨BoundaryPayload.failure ("Unknown tool: " ++ "bogus"),
       setTimestamps [] "bogus" [0], [], 0⟩ ∧
    getTimestamps (setTimestamps [] "bogus" [0]) "bogus" = [0] ∧
    ([0] : List Nat) = (getTimestamps [] "bogus").filter
        (fun t => ctxOk.now - t < RATE_LIMIT_WINDOW) ++ [ctxOk.now] :=
  unknown_tool_consumes_quota ctxOk [] "bogus" ToolCallArgs.malformed [0]
    (by decide) (by decide)

end BananaMcp
